import Mathlib

/-!
Verification development for the FAIRS roulette player execution engine.

The definitions below are a shallow embedding of the Python sources:
machine integers become `Int`/`Nat`, floats become `ℚ`, optional values
become `Option`, and stateful methods become explicit state-passing
functions.  Each definition is named after the source function it embeds.
-/

/-! ## Constants (FAIRS/server/common/constants.py) -/

def NUMBERS : Int := 37

def STATES : Nat := 47

def PAD_VALUE : Int := -1

/-! ## Betting strategy ids (FAIRS/server/learning/betting/types.py) -/

def STRATEGY_KEEP : Int := 0

def STRATEGY_MARTINGALE : Int := 1

def STRATEGY_REVERSE : Int := 2

def STRATEGY_DALEMBERT : Int := 3

def STRATEGY_FIBONACCI : Int := 4

def STRATEGY_COUNT : Int := 5

/-- `is_valid_strategy`: `0 <= int(strategy_id) < STRATEGY_COUNT`. -/
def is_valid_strategy (strategy_id : Int) : Bool :=
  0 ≤ strategy_id ∧ strategy_id < STRATEGY_COUNT

/-- `normalize_strategy_id`: `None` falls back to the default, invalid ids
fall back to the default, valid ids pass through. -/
def normalize_strategy_id (strategy_id : Option Int) (default : Int) : Int :=
  match strategy_id with
  | none => default
  | some candidate => if is_valid_strategy candidate then candidate else default

/-! ## Bet outcome tags (`BET_OUTCOME_WIN` / `LOSS` / `NEUTRAL`). -/

inductive BetOutcome where
  | win
  | loss
  | neutral
deriving DecidableEq

/-! ## BetSizer (FAIRS/server/learning/betting/sizer.py)

State of the deterministic bet-sizing strategy machine; mutation becomes
explicit state passing.  Bets and capital are Python ints, embedded as `Int`
(`int(round(float(x)))` is the identity on integer inputs). -/

structure BetSizer where
  base_bet : Int
  unit : Int
  bet_enforce_capital : Bool
  bet_max : Int
  current_bet : Int
  fib_index : Nat
  fib_values : List Int
  last_outcome : BetOutcome
deriving DecidableEq

/-- Configuration keys read by `BetSizer.__init__` / `_resolve_bet_max`;
`none` models an absent key. -/
structure BetSizerConfig where
  bet_amount : Option Int
  game_bet : Option Int
  bet_unit : Option Int
  bet_enforce_capital : Bool
  bet_max : Option Int
  initial_capital : Option Int
  game_capital : Option Int
deriving DecidableEq

/-- `BetSizer._resolve_bet_max` given the already-resolved base bet. -/
def resolve_bet_max (config : BetSizerConfig) (base_bet : Int) : Int :=
  match config.bet_max with
  | some configured => max 1 configured
  | none =>
      let initial_capital :=
        (config.initial_capital.getD (config.game_capital.getD (base_bet * 128)))
      let capital_cap := max 1 initial_capital
      let conservative_cap := max base_bet (base_bet * 128)
      max 1 (min capital_cap conservative_cap)

/-- `BetSizer.__init__`. -/
def mkBetSizer (config : BetSizerConfig) : BetSizer :=
  let configured_base := config.bet_amount.getD (config.game_bet.getD 1)
  let base_bet := max 1 configured_base
  let unit := max 1 (config.bet_unit.getD base_bet)
  { base_bet := base_bet
    unit := unit
    bet_enforce_capital := config.bet_enforce_capital
    bet_max := resolve_bet_max config base_bet
    current_bet := base_bet
    fib_index := 0
    fib_values := [base_bet, base_bet]
    last_outcome := BetOutcome.neutral }

/-- `BetSizer._clamp_bet`: clamp to `[1, bet_max]` and, when capital is
enforced and supplied, additionally to `max 1 capital`. -/
def clamp_bet (s : BetSizer) (bet_amount : Int) (capital : Option Int) : Int :=
  let resolved := max 1 bet_amount
  let resolved := min resolved s.bet_max
  let resolved :=
    match capital with
    | some c => if s.bet_enforce_capital then min resolved (max 1 c) else resolved
    | none => resolved
  max 1 resolved

/-- One iteration of the `while` loop in `BetSizer._ensure_fib_index`:
append the sum of the last two Fibonacci values. -/
def fib_append (vals : List Int) : List Int :=
  vals ++ [vals.getLastD 0 + (vals.dropLast).getLastD 0]

/-- Auxiliary fuel-driven loop for `_ensure_fib_index`; each pass grows the
list by one element. -/
def ensure_fib_aux : Nat → List Int → List Int
  | 0, vals => vals
  | k + 1, vals => ensure_fib_aux k (fib_append vals)

/-- `BetSizer._ensure_fib_index`: extend `fib_values` until
`target_index < fib_values.length`. -/
def ensure_fib_index (vals : List Int) (target_index : Nat) : List Int :=
  ensure_fib_aux (target_index + 1 - vals.length) vals

/-- `BetSizer.set_last_outcome_from_reward`. -/
def set_last_outcome_from_reward (s : BetSizer) (reward : ℚ) : BetSizer :=
  if 0 < reward then { s with last_outcome := BetOutcome.win }
  else if reward < 0 then { s with last_outcome := BetOutcome.loss }
  else { s with last_outcome := BetOutcome.neutral }

/-- `BetSizer._resolve_next_bet`: returns the candidate next bet together
with the (possibly fib-mutated) state. -/
def resolve_next_bet (s : BetSizer) (strategy_id : Int) : Int × BetSizer :=
  if strategy_id = STRATEGY_KEEP then (s.current_bet, s)
  else if s.last_outcome = BetOutcome.neutral then (s.current_bet, s)
  else if strategy_id = STRATEGY_MARTINGALE then
    (if s.last_outcome = BetOutcome.loss then s.current_bet * 2 else s.base_bet, s)
  else if strategy_id = STRATEGY_REVERSE then
    (if s.last_outcome = BetOutcome.win then s.current_bet * 2 else s.base_bet, s)
  else if strategy_id = STRATEGY_DALEMBERT then
    (if s.last_outcome = BetOutcome.loss then s.current_bet + s.unit
     else if s.base_bet < s.current_bet then s.current_bet - s.unit
     else s.base_bet, s)
  else if strategy_id = STRATEGY_FIBONACCI then
    let idx :=
      if s.last_outcome = BetOutcome.loss then s.fib_index + 1
      else if s.last_outcome = BetOutcome.win then s.fib_index - 2
      else s.fib_index
    let vals := ensure_fib_index s.fib_values idx
    (vals.getD idx 0, { s with fib_index := idx, fib_values := vals })
  else (s.current_bet, s)

/-- `BetSizer.apply`: normalize the strategy id, compute the next bet,
clamp it, commit it, and return it. -/
def BetSizer.apply (s : BetSizer) (strategy_id : Int) (capital : Option Int) :
    Int × BetSizer :=
  let normalized_strategy := normalize_strategy_id (some strategy_id) STRATEGY_KEEP
  let r := resolve_next_bet s normalized_strategy
  let clamped := clamp_bet r.2 r.1 capital
  (clamped, { r.2 with current_bet := clamped })

/-- `BetSizer.preview`: same computation as `apply` but `current_bet` and
`fib_index` are restored afterwards (lazily extended `fib_values` are kept). -/
def BetSizer.preview (s : BetSizer) (strategy_id : Int) (capital : Option Int) :
    Int × BetSizer :=
  let normalized_strategy := normalize_strategy_id (some strategy_id) STRATEGY_KEEP
  let r := resolve_next_bet s normalized_strategy
  let restored := { r.2 with current_bet := s.current_bet, fib_index := s.fib_index }
  (clamp_bet restored r.1 capital, restored)

/-- `BetSizer.set_current_bet`. -/
def set_current_bet (s : BetSizer) (bet_amount : Int) (capital : Option Int) :
    Int × BetSizer :=
  let clamped := clamp_bet s bet_amount capital
  (clamped, { s with current_bet := clamped })

/-! ## StrategyHold (FAIRS/server/learning/betting/hold.py) -/

structure StrategyHold where
  hold_steps : Int
  fallback_strategy_id : Int
  current_strategy_id : Option Int
  hold_remaining : Int
deriving DecidableEq

/-- `StrategyHold.__init__`. -/
def mkStrategyHold (hold_steps : Int) (fallback_strategy_id : Int) : StrategyHold :=
  { hold_steps := max 1 hold_steps
    fallback_strategy_id := normalize_strategy_id (some fallback_strategy_id) STRATEGY_KEEP
    current_strategy_id := none
    hold_remaining := 0 }

/-- `StrategyHold.resolve`: while a hold is active return the held strategy,
otherwise adopt the (possibly absent) selection, falling back to the
configured fallback. -/
def hold_resolve (h : StrategyHold) (selected_strategy_id : Option Int) :
    Int × StrategyHold :=
  if h.current_strategy_id ≠ none ∧ 0 < h.hold_remaining then
    (h.current_strategy_id.getD 0, { h with hold_remaining := h.hold_remaining - 1 })
  else
    let next_strategy := normalize_strategy_id selected_strategy_id h.fallback_strategy_id
    (next_strategy,
      { h with current_strategy_id := some next_strategy,
               hold_remaining := max 0 (h.hold_steps - 1) })

/-! ## Wager/reward model (FAIRS/server/learning/training/environment.py)

`BetsAndRewards`: rewards are Python ints.  The red/black sets come from
`RouletteSeriesEncoder.color_map` (FAIRS/server/services/process.py). -/

def red_numbers : List Int :=
  [32, 19, 21, 25, 34, 27, 36, 30, 23, 5, 16, 1, 14, 9, 18, 7, 12, 3]

def black_numbers : List Int :=
  [15, 4, 2, 17, 6, 13, 11, 8, 10, 24, 33, 20, 31, 22, 29, 28, 35, 26]

/-- `BetsAndRewards.bet_on_number`. -/
def bet_on_number (bet_amount action next_extraction : Int) : Int × Bool :=
  if action = next_extraction then (35 * bet_amount, false) else (-bet_amount, false)

/-- `BetsAndRewards.bet_on_red`. -/
def bet_on_red (bet_amount next_extraction : Int) : Int × Bool :=
  if next_extraction ∈ red_numbers then (bet_amount, false) else (-bet_amount, false)

/-- `BetsAndRewards.bet_on_black`. -/
def bet_on_black (bet_amount next_extraction : Int) : Int × Bool :=
  if next_extraction ∈ black_numbers then (bet_amount, false) else (-bet_amount, false)

/-- `BetsAndRewards.bet_on_odd`. -/
def bet_on_odd (bet_amount next_extraction : Int) : Int × Bool :=
  if next_extraction ≠ 0 ∧ next_extraction % 2 = 1 then (bet_amount, false)
  else (-bet_amount, false)

/-- `BetsAndRewards.bet_on_even`. -/
def bet_on_even (bet_amount next_extraction : Int) : Int × Bool :=
  if next_extraction ≠ 0 ∧ next_extraction % 2 = 0 then (bet_amount, false)
  else (-bet_amount, false)

/-- `BetsAndRewards.bet_on_low`. -/
def bet_on_low (bet_amount next_extraction : Int) : Int × Bool :=
  if 1 ≤ next_extraction ∧ next_extraction ≤ 18 then (bet_amount, false)
  else (-bet_amount, false)

/-- `BetsAndRewards.bet_on_high`. -/
def bet_on_high (bet_amount next_extraction : Int) : Int × Bool :=
  if 19 ≤ next_extraction ∧ next_extraction ≤ NUMBERS - 1 then (bet_amount, false)
  else (-bet_amount, false)

/-- `BetsAndRewards.bet_on_first_dozen`. -/
def bet_on_first_dozen (bet_amount next_extraction : Int) : Int × Bool :=
  if 1 ≤ next_extraction ∧ next_extraction ≤ 12 then (2 * bet_amount, false)
  else (-bet_amount, false)

/-- `BetsAndRewards.bet_on_second_dozen`. -/
def bet_on_second_dozen (bet_amount next_extraction : Int) : Int × Bool :=
  if 13 ≤ next_extraction ∧ next_extraction ≤ 24 then (2 * bet_amount, false)
  else (-bet_amount, false)

/-- `BetsAndRewards.bet_on_third_dozen`. -/
def bet_on_third_dozen (bet_amount next_extraction : Int) : Int × Bool :=
  if 25 ≤ next_extraction ∧ next_extraction ≤ NUMBERS - 1 then (2 * bet_amount, false)
  else (-bet_amount, false)

/-- `BetsAndRewards.pass_turn`. -/
def pass_turn : Int × Bool := (0, false)

/-- `BetsAndRewards.interact_and_get_rewards`: dispatch on the action id,
then add the reward to the capital.  Returns `(reward, capital, done)`. -/
def interact_and_get_rewards (bet_amount action next_extraction capital : Int) :
    Int × Int × Bool :=
  let rd : Int × Bool :=
    if 0 ≤ action ∧ action ≤ 36 then bet_on_number bet_amount action next_extraction
    else if action = 37 then bet_on_red bet_amount next_extraction
    else if action = 38 then bet_on_black bet_amount next_extraction
    else if action = 39 then pass_turn
    else if action = 40 then bet_on_odd bet_amount next_extraction
    else if action = 41 then bet_on_even bet_amount next_extraction
    else if action = 42 then bet_on_low bet_amount next_extraction
    else if action = 43 then bet_on_high bet_amount next_extraction
    else if action = 44 then bet_on_first_dozen bet_amount next_extraction
    else if action = 45 then bet_on_second_dozen bet_amount next_extraction
    else if action = 46 then bet_on_third_dozen bet_amount next_extraction
    else (0, false)
  (rd.1, capital + rd.1, rd.2)

/-- `RouletteEnvironment.scale_rewards` (elementwise): the linear rescale of
a reward against the configured bet amount, written exactly as in the source. -/
def scale_rewards (bet_amount : ℚ) (reward : ℚ) : ℚ :=
  let negative_scaled := ((reward - (-bet_amount)) / (0 - (-bet_amount))) * (0 - (-1)) + (-1)
  let positive_scaled := ((reward - 0) / (bet_amount * 35)) * (1 - 0) + 0
  if reward < 0 then negative_scaled else positive_scaled

/-! ## DQN agent (FAIRS/server/learning/training/agents.py)

The Keras model is the external capability `predict(state, gain) -> Q[47]`;
we embed it as a function argument.  A replay-buffer transition
`(state, action, reward, gain, next_gain, next_state, done)`. -/

structure Transition where
  state : List Int
  action : Fin STATES
  reward : Int
  gain : ℚ
  next_gain : ℚ
  next_state : List Int
  done : Bool

/-- A model prediction: Q-values over the 47 actions from a state window and
a gain scalar. -/
def QModel : Type := List Int → ℚ → Fin STATES → ℚ

/-- `np.argmax` over a Q-vector: the first index attaining the maximum. -/
def np_argmax (q : Fin STATES → ℚ) : Fin STATES :=
  (List.finRange STATES).foldl (fun best i => if q best < q i then i else best) ⟨0, by decide⟩

/-- `dones` are stored as `int32` 0/1 in `replay`. -/
def done_flag (d : Bool) : ℚ := if d then 1 else 0

/-- The double-Q bootstrap value for one sampled transition:
`scaled_reward + (1 - done) * gamma * q_futures_target[best_next_action]`
where `best_next_action = argmax(model.predict(next_state, next_gain))`. -/
def updated_target (gamma bet_amount : ℚ) (model target_model : QModel)
    (t : Transition) : ℚ :=
  let best_next_action := np_argmax (model t.next_state t.next_gain)
  let q_future_selected := target_model t.next_state t.next_gain best_next_action
  scale_rewards bet_amount (t.reward : ℚ) + (1 - done_flag t.done) * gamma * q_future_selected

/-- One elementwise write of the numpy scatter assignment
`targets[batch_indices, actions] = updated_targets`. -/
def set_entry {n : Nat} (m : Fin n → Fin STATES → ℚ) (i : Fin n) (a : Fin STATES)
    (v : ℚ) : Fin n → Fin STATES → ℚ :=
  fun j b => if j = i ∧ b = a then v else m j b

/-- The `targets` matrix that `DQNAgent.replay` passes to
`model.train_on_batch`: start from the online model's predictions on the
sampled states, then scatter the double-Q targets into the taken-action
entries. -/
def replay_targets {n : Nat} (gamma bet_amount : ℚ) (model target_model : QModel)
    (minibatch : Fin n → Transition) : Fin n → Fin STATES → ℚ :=
  (List.finRange n).foldl
    (fun m i =>
      set_entry m i (minibatch i).action
        (updated_target gamma bet_amount model target_model (minibatch i)))
    (fun i a => model (minibatch i).state (minibatch i).gain a)

/-- The epsilon/replay-readiness fragment of `DQNAgent` state.  The replay
buffer contents are irrelevant to the epsilon dynamics; only its bounded
length matters (`deque(maxlen=memory_size)`). -/
structure DQNAgentState where
  epsilon : ℚ
  epsilon_decay : ℚ
  epsilon_min : ℚ
  memory_size : Nat
  replay_size : Nat
  memory_len : Nat
deriving DecidableEq

/-- `DQNAgent.__init__` (epsilon fragment; the buffer starts empty). -/
def mkDQNAgent (exploration_rate exploration_rate_decay minimum_exploration_rate : ℚ)
    (max_memory_size replay_buffer_size : Nat) : DQNAgentState :=
  { epsilon := exploration_rate
    epsilon_decay := exploration_rate_decay
    epsilon_min := minimum_exploration_rate
    memory_size := max_memory_size
    replay_size := replay_buffer_size
    memory_len := 0 }

/-- `DQNAgent.is_training_ready`: `len(self.memory) > self.replay_size`. -/
def is_training_ready (a : DQNAgentState) : Bool :=
  a.replay_size < a.memory_len

/-- `DQNAgent.remember`: append to the bounded deque (length capped at
`memory_size`). -/
def remember (a : DQNAgentState) : DQNAgentState :=
  { a with memory_len := min (a.memory_len + 1) a.memory_size }

/-- The epsilon update at the end of `DQNAgent.replay`:
`if self.epsilon > self.epsilon_min: self.epsilon *= self.epsilon_decay`. -/
def replay_epsilon_update (a : DQNAgentState) : DQNAgentState :=
  if a.epsilon_min < a.epsilon then { a with epsilon := a.epsilon * a.epsilon_decay }
  else a

/-- `DQNTraining._handle_replay_and_logging` (epsilon fragment): `replay`
runs only once `is_training_ready()` holds. -/
def handle_replay (a : DQNAgentState) : DQNAgentState :=
  if is_training_ready a then replay_epsilon_update a else a

/-- One training-loop step as it affects the agent: `remember` the new
transition, then replay (and decay epsilon) only if the buffer is ready. -/
def train_step (a : DQNAgentState) : DQNAgentState :=
  handle_replay (remember a)

/-! ## Bucketed training history (FAIRS/server/learning/training/fitting.py)

`DQNTraining.update_session_stats` and the surrounding state.  All metric
values are finite in this embedding, so `coerce_finite_float` /
`coerce_finite_int` act as the identity and are inlined. -/

def HISTORY_POINTS_PER_EPISODE : Nat := 20

/-- The parallel lists of `self.session_stats`. -/
structure SessionStats where
  episode : List Nat
  time_step : List Nat
  loss : List ℚ
  metrics : List ℚ
  img_reward : List ℚ
  val_loss : List ℚ
  val_rmse : List ℚ
  reward : List ℚ
  total_reward : List ℚ
  capital : List ℚ
deriving DecidableEq

def emptySessionStats : SessionStats :=
  { episode := [], time_step := [], loss := [], metrics := [], img_reward := []
    val_loss := [], val_rmse := [], reward := [], total_reward := [], capital := [] }

/-- The history-bucketing fragment of `DQNTraining` state. -/
structure TrainingHistoryState where
  max_steps : Nat
  last_history_episode : Option Nat
  last_history_bucket : Option Nat
  session_stats : SessionStats
deriving DecidableEq

/-- `DQNTraining.__init__` (history fragment, fresh session). -/
def mkTrainingHistoryState (max_steps_episode : Nat) : TrainingHistoryState :=
  { max_steps := max_steps_episode
    last_history_episode := none
    last_history_bucket := none
    session_stats := emptySessionStats }

/-- `self.history_bucket_size`: `max_steps / 20` when positive, else `1.0`. -/
def history_bucket_size (max_steps : Nat) : ℚ :=
  if 0 < max_steps then (max_steps : ℚ) / (HISTORY_POINTS_PER_EPISODE : ℚ) else 1

/-- The bucket computed at the top of `update_session_stats`:
`int(time_step / bucket_size)` clamped to `19` when `max_steps >= 20`. -/
def history_bucket (max_steps time_step : Nat) : Nat :=
  let bucket := ⌊(time_step : ℚ) / history_bucket_size max_steps⌋₊
  if HISTORY_POINTS_PER_EPISODE ≤ max_steps then
    min (HISTORY_POINTS_PER_EPISODE - 1) bucket
  else bucket

/-- The `{loss, root_mean_squared_error, reward}` dictionary returned by
`replay` / `_run_validation`. -/
structure Scores where
  loss : ℚ
  rmse : ℚ
  reward : ℚ
deriving DecidableEq

/-- `DQNTraining.update_session_stats`: reset the bucket tracker on an
episode change, drop a repeat of the last bucket, otherwise append one
point to every list (validation columns carry the last value forward when
no validation scores arrived). -/
def update_session_stats (s : TrainingHistoryState) (scores : Scores)
    (val_scores : Option Scores) (episode time_step : Nat)
    (reward total_reward capital : ℚ) : TrainingHistoryState :=
  let bucket := history_bucket s.max_steps time_step
  let s :=
    if s.last_history_episode ≠ some episode then
      { s with last_history_episode := some episode, last_history_bucket := none }
    else s
  if s.last_history_bucket = some bucket then s
  else
    let s := { s with last_history_bucket := some bucket }
    let st := s.session_stats
    let st :=
      { st with
          episode := st.episode ++ [episode + 1]
          time_step := st.time_step ++ [time_step]
          loss := st.loss ++ [scores.loss]
          metrics := st.metrics ++ [scores.rmse]
          reward := st.reward ++ [reward]
          total_reward := st.total_reward ++ [total_reward]
          capital := st.capital ++ [capital] }
    let st :=
      match val_scores with
      | some v =>
          { st with
              val_loss := st.val_loss ++ [v.loss]
              val_rmse := st.val_rmse ++ [v.rmse]
              img_reward := st.img_reward ++ [v.reward] }
      | none =>
          { st with
              val_loss := st.val_loss ++ [st.val_loss.getLastD 0]
              val_rmse := st.val_rmse ++ [st.val_rmse.getLastD 0]
              img_reward := st.img_reward ++ [st.img_reward.getLastD 0] }
  { s with session_stats := st }

/-- One arrival at `update_session_stats` during a training run. -/
structure StatsCall where
  scores : Scores
  val_scores : Option Scores
  episode : Nat
  time_step : Nat
  reward : ℚ
  total_reward : ℚ
  capital : ℚ

/-- Feed a sequence of stats arrivals through `update_session_stats`. -/
def apply_stats_calls (s : TrainingHistoryState) : List StatsCall → TrainingHistoryState
  | [] => s
  | c :: cs =>
      apply_stats_calls
        (update_session_stats s c.scores c.val_scores c.episode c.time_step
          c.reward c.total_reward c.capital) cs

/-- The ordering the training loop guarantees for arrivals: episodes are
non-decreasing and, within an episode, time steps are non-decreasing.
The first argument is the previous arrival, if any. -/
def stats_chain : Option StatsCall → List StatsCall → Prop
  | _, [] => True
  | prev, c :: cs =>
      (match prev with
       | none => True
       | some p => p.episode ≤ c.episode ∧ (p.episode = c.episode → p.time_step ≤ c.time_step))
      ∧ stats_chain (some c) cs

/-- Number of history points recorded for a given episode (the source
stores `episode + 1` in the `episode` column). -/
def episode_point_count (s : TrainingHistoryState) (episode : Nat) : Nat :=
  s.session_stats.episode.count (episode + 1)

/-! ## Lossy progress channel (FAIRS/server/utils/services/training/worker.py)

`QueueProgressReporter`: the queue is a bounded FIFO, embedded as a list
(front = oldest) with its `maxsize`. -/

inductive WorkerMessage where
  | training_update (stats : List (String × ℚ))
  | other_message (payload : String)
deriving DecidableEq

/-- `message.get("type") == "training_update"`. -/
def is_training_update : WorkerMessage → Bool
  | WorkerMessage.training_update _ => true
  | WorkerMessage.other_message _ => false

/-- `QueueProgressReporter.drain_queue`: `get_nowait` until `queue.Empty`,
i.e. remove every pending message. -/
def drain_queue (_q : List WorkerMessage) : List WorkerMessage := []

/-- `QueueProgressReporter.__call__`: drain the queue before enqueuing a
`training_update`; `put(message, block=False)` drops the new message when
the queue is full (`queue.Full` is swallowed). -/
def reporter_send (maxsize : Nat) (q : List WorkerMessage) (message : WorkerMessage) :
    List WorkerMessage :=
  let q := if is_training_update message then drain_queue q else q
  if q.length < maxsize then q ++ [message] else q

/-- Number of pending `training_update` messages in a queue. -/
def pending_updates (q : List WorkerMessage) : Nat :=
  q.countP (fun m => is_training_update m)

/-! ## Monitoring loop and forced termination
(FAIRS/server/routes/training.py `monitor_training_process`,
FAIRS/server/utils/services/training/worker.py `ProcessWorker`). -/

inductive Sig where
  | sigterm
  | sigkill
deriving DecidableEq

/-- `ProcessWorker.terminate_process_tree` on POSIX: process-group SIGTERM,
then SIGKILL if the process is still alive after the 1s delay.  SIGKILL
cannot be handled, so the process is dead afterwards either way.  Returns
the signals sent and the final aliveness. -/
def terminate_process_tree (alive_after_sigterm : Bool) : List Sig × Bool :=
  if alive_after_sigterm then ([Sig.sigterm, Sig.sigkill], false)
  else ([Sig.sigterm], false)

/-- The caller-side state observed by one iteration of the
`monitor_training_process` loop.  `now` is the monotonic clock. -/
structure MonitorState where
  worker_alive : Bool
  interrupted : Bool
  should_stop : Bool
  stop_requested_at : Option ℚ
  now : ℚ
  terminate_invoked : Bool
deriving DecidableEq

/-- One iteration of the `while worker.is_alive()` loop in
`monitor_training_process`.  Returns the successor state and whether the
loop exited.  `alive_after_sigterm` is the environment's answer to the
post-SIGTERM aliveness probe inside `terminate_process_tree`; polling
advances the clock by at most the poll timeout. -/
def monitor_step (stop_timeout_seconds poll_elapsed : ℚ) (alive_after_sigterm : Bool)
    (s : MonitorState) : MonitorState × Bool :=
  if s.worker_alive = false then (s, true)
  else
    let s :=
      if s.should_stop ∧ s.interrupted = false then
        { s with interrupted := true, stop_requested_at := some s.now }
      else s
    match s.stop_requested_at with
    | some t =>
        if stop_timeout_seconds ≤ s.now - t then
          ({ s with
              terminate_invoked := true
              worker_alive := (terminate_process_tree alive_after_sigterm).2 }, true)
        else ({ s with now := s.now + poll_elapsed }, false)
    | none => ({ s with now := s.now + poll_elapsed }, false)

/-- `stop_timeout_seconds=5.0` at the `run_training_job` call site. -/
def STOP_TIMEOUT_SECONDS : ℚ := 5

/-! ## Result-channel handling after the loop
(FAIRS/server/routes/training.py lines 368-379). -/

/-- The terminal message read from the result channel: the values under the
`"error"` / `"result"` keys when present. -/
structure ResultPayload where
  error : Option String
  result : Option (List (String × ℚ))
deriving DecidableEq

inductive MonitorOutcome where
  | ok (result : List (String × ℚ))
  | failure (message : String)
deriving DecidableEq

def exit_code_err_msg (code : Option Int) : String :=
  "Training process exited with code " ++
    (match code with
     | some c => toString c
     | none => "None")

/-- The tail of `monitor_training_process`: a missing result payload is an
error exactly when the exit code is neither 0 nor `None` and no stop was
requested; a truthy `"error"` value raises; otherwise the `"result"` value
(or `{}`) is returned. -/
def handle_result (payload : Option ResultPayload) (exitcode : Option Int)
    (stop_requested : Bool) : MonitorOutcome :=
  match payload with
  | none =>
      if (exitcode ≠ some 0 ∧ exitcode ≠ none) ∧ stop_requested = false then
        MonitorOutcome.failure (exit_code_err_msg exitcode)
      else MonitorOutcome.ok []
  | some p =>
      match p.error with
      | some e =>
          if e ≠ "" then MonitorOutcome.failure e
          else
            match p.result with
            | some r => MonitorOutcome.ok r
            | none => MonitorOutcome.ok []
      | none =>
          match p.result with
          | some r => MonitorOutcome.ok r
          | none => MonitorOutcome.ok []

/-! ## Concrete states used by counterexamples and witnesses. -/

/-- A `BetSizer` configured with base bet 5, capital enforcement on, and the
default bet cap. -/
def c8_sizer : BetSizer :=
  mkBetSizer
    { bet_amount := some 5, game_bet := none, bet_unit := none
      bet_enforce_capital := true, bet_max := none
      initial_capital := none, game_capital := none }

/-- Bet sizer config: base bet 10, default unit (= base), bet cap 25. -/
def c9_config : BetSizerConfig :=
  { bet_amount := some 10, game_bet := none, bet_unit := none
    bet_enforce_capital := false, bet_max := some 25
    initial_capital := none, game_capital := none }

/-- The state reached from `mkBetSizer c9_config` by the D'Alembert play
loss, loss, win (each outcome applied, each bet committed via `apply`),
followed by recording one more win: bets went 10 → 20 → 25 (capped) → 15. -/
def c9_state : BetSizer :=
  let s := mkBetSizer c9_config
  let s := set_last_outcome_from_reward s (-10)
  let s := (s.apply STRATEGY_DALEMBERT none).2
  let s := set_last_outcome_from_reward s (-10)
  let s := (s.apply STRATEGY_DALEMBERT none).2
  let s := set_last_outcome_from_reward s 10
  let s := (s.apply STRATEGY_DALEMBERT none).2
  set_last_outcome_from_reward s 10

/-- An agent whose epsilon sits just above the floor: one decay steps past
`epsilon_min`.  `replay_buffer_size = 0`, so the buffer is ready after one
remembered transition. -/
def c4_agent : DQNAgentState :=
  mkDQNAgent (251 / 2500) (995 / 1000) (1 / 10) 10000 0

def c5_scores1 : Scores := { loss := 1, rmse := 0, reward := 0 }

def c5_scores2 : Scores := { loss := 2, rmse := 0, reward := 0 }

/-- History state after one stats point for episode 0, time step 50
(bucket 0, loss 1) with `max_steps = 2000`. -/
def c5_s1 : TrainingHistoryState :=
  update_session_stats (mkTrainingHistoryState 2000) c5_scores1 none 0 50 0 0 0

/-- Re-submission of the same `(episode, bucket)` key with a different loss. -/
def c5_s2 : TrainingHistoryState :=
  update_session_stats c5_s1 c5_scores2 none 0 50 0 0 0

/-- A monitor state 6 seconds after a stop request, worker still alive. -/
def c3_state : MonitorState :=
  { worker_alive := true, interrupted := true, should_stop := true
    stop_requested_at := some 0, now := 6, terminate_invoked := false }

/-- First stats arrival: episode 0, time step 50 (bucket 0). -/
def c5_call1 : StatsCall :=
  { scores := c5_scores1, val_scores := none, episode := 0, time_step := 50
    reward := 0, total_reward := 0, capital := 0 }

/-- Second stats arrival: episode 0, time step 150 (bucket 1). -/
def c5_call2 : StatsCall :=
  { scores := c5_scores2, val_scores := none, episode := 0, time_step := 150
    reward := 0, total_reward := 0, capital := 0 }

/-- A D'Alembert state several units above base, last outcome a win. -/
def c9_witness_state : BetSizer :=
  { base_bet := 10, unit := 10, bet_enforce_capital := false, bet_max := 100
    current_bet := 30, fib_index := 0, fib_values := [10, 10]
    last_outcome := BetOutcome.win }

/-- A concrete sampled transition for exercising `replay_targets`. -/
def c1_transition : Transition :=
  { state := [1, 2], action := ⟨5, by decide⟩, reward := -10, gain := 1
    next_gain := 1, next_state := [2, 3], done := false }

/-- A concrete online model: Q-value equals the action index. -/
def c1_model : QModel := fun _ _ a => (a.1 : ℚ)

/-- A concrete target model: Q-value equals twice the action index. -/
def c1_target_model : QModel := fun _ _ a => 2 * (a.1 : ℚ)

/-- Proof invariant for the bucketed-history bound: the relation between
the last processed arrival and the tracker/counter state. -/
def history_inv (m : Nat) : Option StatsCall → TrainingHistoryState → Prop
  | none, s =>
      s.max_steps = m ∧ s.last_history_episode = none ∧
        s.last_history_bucket = none ∧ s.session_stats.episode = []
  | some p, s =>
      s.max_steps = m
      ∧ s.last_history_episode = some p.episode
      ∧ s.last_history_bucket = some (history_bucket m p.time_step)
      ∧ (∀ e, episode_point_count s e ≤ HISTORY_POINTS_PER_EPISODE)
      ∧ episode_point_count s p.episode ≤ history_bucket m p.time_step + 1
      ∧ (∀ e, p.episode < e → episode_point_count s e = 0)

/-! # Theorems -/

/-! ## C2: the progress channel keeps only the newest training update. -/

/-- Claim C2: sending a `training_update` through the worker progress
reporter while the queue already holds a pending `training_update` leaves
the queue holding exactly one `training_update`, namely the newly sent
one; older pending updates are dropped, never the newest. -/
theorem progress_queue_keeps_newest_update (maxsize : Nat) (hmax : 1 ≤ maxsize)
    (q : List WorkerMessage) (stats : List (String × ℚ))
    (hpending : 1 ≤ pending_updates q) :
    reporter_send maxsize q (WorkerMessage.training_update stats) =
        [WorkerMessage.training_update stats]
    ∧ pending_updates
        (reporter_send maxsize q (WorkerMessage.training_update stats)) = 1 := by
  have h : reporter_send maxsize q (WorkerMessage.training_update stats) =
      [WorkerMessage.training_update stats] := by
    unfold reporter_send drain_queue
    simp [is_training_update]
    omega
  refine ⟨h, ?_⟩
  rw [h]
  simp [pending_updates, is_training_update]

theorem progress_queue_keeps_newest_update_witness :
    1 ≤ 256
    ∧ 1 ≤ pending_updates [WorkerMessage.training_update [("loss", 1)]]
    ∧ reporter_send 256 [WorkerMessage.training_update [("loss", 1)]]
        (WorkerMessage.training_update [("loss", 2)]) =
        [WorkerMessage.training_update [("loss", 2)]] :=
  ⟨by decide, by decide,
    (progress_queue_keeps_newest_update 256 (by decide)
      [WorkerMessage.training_update [("loss", 1)]] [("loss", 2)] (by decide)).1⟩

/-! ## C3: grace-period escalation to forced termination. -/

/-- Claim C3: in the caller-side monitoring loop, if a stop has been
requested (the cooperative stop flag is set and the request time recorded)
and the worker is still alive once the 5-second grace period has elapsed,
the loop iteration invokes `terminate()` (process-group SIGTERM followed,
if still alive, by SIGKILL) and exits; the worker is not alive afterwards. -/
theorem monitor_grace_period_terminate (poll_elapsed : ℚ) (alive_after_sigterm : Bool)
    (s : MonitorState) (t : ℚ)
    (halive : s.worker_alive = true)
    (hstopped : s.interrupted = true)
    (hreq : s.stop_requested_at = some t)
    (helapsed : STOP_TIMEOUT_SECONDS ≤ s.now - t) :
    (monitor_step STOP_TIMEOUT_SECONDS poll_elapsed alive_after_sigterm s).2 = true
    ∧ (monitor_step STOP_TIMEOUT_SECONDS poll_elapsed alive_after_sigterm
        s).1.terminate_invoked = true
    ∧ (monitor_step STOP_TIMEOUT_SECONDS poll_elapsed alive_after_sigterm
        s).1.worker_alive = false := by
  unfold monitor_step terminate_process_tree
  cases alive_after_sigterm <;>
    simp [halive, hstopped, hreq, helapsed]

theorem monitor_grace_period_terminate_witness :
    c3_state.worker_alive = true
    ∧ c3_state.interrupted = true
    ∧ c3_state.stop_requested_at = some 0
    ∧ STOP_TIMEOUT_SECONDS ≤ c3_state.now - 0
    ∧ (monitor_step STOP_TIMEOUT_SECONDS (1/4) true c3_state).2 = true
    ∧ (monitor_step STOP_TIMEOUT_SECONDS (1/4) true c3_state).1.worker_alive = false :=
  ⟨rfl, rfl, rfl, by norm_num [c3_state, STOP_TIMEOUT_SECONDS],
    (monitor_grace_period_terminate (1/4) true c3_state 0 rfl rfl rfl
      (by norm_num [c3_state, STOP_TIMEOUT_SECONDS])).1,
    (monitor_grace_period_terminate (1/4) true c3_state 0 rfl rfl rfl
      (by norm_num [c3_state, STOP_TIMEOUT_SECONDS])).2.2⟩

/-! ## C6: a missing result with a non-zero, non-stop exit code is an error. -/

/-- Claim C6: when the result channel yields no terminal message, the
monitoring loop raises an error carrying the exit code exactly when the
worker exited non-zero and no stop was requested; a missing result with
exit code zero, or with a stop requested, is returned as an empty success. -/
theorem missing_result_error_handling (code : Int) (hc : code ≠ 0) :
    handle_result none (some code) false =
        MonitorOutcome.failure (exit_code_err_msg (some code))
    ∧ handle_result none (some 0) false = MonitorOutcome.ok []
    ∧ (∀ exitcode : Option Int, handle_result none exitcode true = MonitorOutcome.ok []) := by
  refine ⟨?_, ?_, ?_⟩
  · simp [handle_result, hc]
  · simp [handle_result]
  · intro exitcode
    simp [handle_result]

theorem missing_result_error_handling_witness :
    (3 : Int) ≠ 0
    ∧ handle_result none (some 3) false =
        MonitorOutcome.failure (exit_code_err_msg (some 3)) :=
  ⟨by decide, (missing_result_error_handling 3 (by decide)).1⟩

/-! ## C7: straight-number bet rewards. -/

/-- Claim C7: for every outcome in `[0, 36]`, every straight-bet action in
`[0, 36]` and every bet amount, `interact_and_get_rewards` pays
`35 * bet` on an exact match and `-bet` otherwise. -/
theorem straight_bet_reward (outcome action bet_amount capital : Int)
    (houtcome : 0 ≤ outcome ∧ outcome ≤ 36)
    (haction : 0 ≤ action ∧ action ≤ 36) :
    (interact_and_get_rewards bet_amount action outcome capital).1 =
      if action = outcome then 35 * bet_amount else -bet_amount := by
  unfold interact_and_get_rewards bet_on_number
  simp only [haction, and_self, if_true]
  split <;> simp

theorem straight_bet_reward_witness :
    ((0 : Int) ≤ 17 ∧ (17 : Int) ≤ 36)
    ∧ (interact_and_get_rewards 10 17 17 100).1 = 350
    ∧ (interact_and_get_rewards 10 21 17 100).1 = -10 :=
  ⟨by decide,
    by rw [straight_bet_reward 17 17 10 100 (by decide) (by decide)]; decide,
    by rw [straight_bet_reward 17 21 10 100 (by decide) (by decide)]; decide⟩

/-! ## C10: invalid strategy ids are silently normalized. -/

/-- Claim C10: for every integer strategy id outside `[0, 4]`,
`normalize_strategy_id` falls back to the default (`Keep`), `apply` and
`preview` behave exactly as with the default strategy (no error is
possible: the functions are total), and a `None` selection passed to the
hold wrapper's `resolve` adopts the configured fallback strategy whenever
no hold is active. -/
theorem invalid_strategy_normalized (strategy_id : Int)
    (hid : strategy_id < 0 ∨ STRATEGY_COUNT ≤ strategy_id) :
    normalize_strategy_id (some strategy_id) STRATEGY_KEEP = STRATEGY_KEEP
    ∧ (∀ (s : BetSizer) (capital : Option Int),
        s.apply strategy_id capital = s.apply STRATEGY_KEEP capital
        ∧ s.preview strategy_id capital = s.preview STRATEGY_KEEP capital)
    ∧ (∀ h : StrategyHold, ¬(h.current_strategy_id ≠ none ∧ 0 < h.hold_remaining) →
        (hold_resolve h none).1 = h.fallback_strategy_id) := by
  have hnorm : normalize_strategy_id (some strategy_id) STRATEGY_KEEP = STRATEGY_KEEP := by
    unfold normalize_strategy_id is_valid_strategy
    have : ¬(0 ≤ strategy_id ∧ strategy_id < STRATEGY_COUNT) := by
      unfold STRATEGY_COUNT at *
      omega
    simp [this]
  have hkeep : normalize_strategy_id (some STRATEGY_KEEP) STRATEGY_KEEP = STRATEGY_KEEP := by
    decide
  refine ⟨hnorm, ?_, ?_⟩
  · intro s capital
    constructor
    · unfold BetSizer.apply
      rw [hnorm, hkeep]
    · unfold BetSizer.preview
      rw [hnorm, hkeep]
  · intro h hno
    unfold hold_resolve
    simp [hno, normalize_strategy_id]

theorem invalid_strategy_normalized_witness :
    ((7 : Int) < 0 ∨ STRATEGY_COUNT ≤ 7)
    ∧ normalize_strategy_id (some 7) STRATEGY_KEEP = STRATEGY_KEEP
    ∧ c8_sizer.apply 7 (some 100) = c8_sizer.apply STRATEGY_KEEP (some 100) :=
  ⟨by decide, (invalid_strategy_normalized 7 (by decide)).1,
    ((invalid_strategy_normalized 7 (by decide)).2.1 c8_sizer (some 100)).1⟩

/-! ## C8: the bet clamp and the capital bound. -/

/-- Claim C8 counterexample: with capital enforcement on and a supplied
capital of 0, `apply` commits a bet of 1, which is *not* `≤ capital`; the
clamp floors every bet at 1, so the claimed bound fails for zero or
negative capital. -/
theorem bet_clamp_capital_counterexample :
    c8_sizer.bet_enforce_capital = true
    ∧ (c8_sizer.apply STRATEGY_KEEP (some 0)).2.current_bet = 1
    ∧ ¬((c8_sizer.apply STRATEGY_KEEP (some 0)).2.current_bet ≤ 0)
    ∧ (c8_sizer.apply STRATEGY_KEEP (some (-3))).2.current_bet = 1 := by
  decide

/-- `_clamp_bet` lands in `[1, bet_max]` (when `bet_max ≥ 1`) and below
`max 1 capital` when capital is enforced and supplied. -/
theorem clamp_bet_bounds (s : BetSizer) (hmax : 1 ≤ s.bet_max) (bet : Int)
    (capital : Option Int) :
    1 ≤ clamp_bet s bet capital ∧ clamp_bet s bet capital ≤ s.bet_max
    ∧ (∀ c, s.bet_enforce_capital = true → capital = some c →
        clamp_bet s bet capital ≤ max 1 c) := by
  rcases capital with _ | c
  · simp only [clamp_bet]
    refine ⟨by omega, by omega, ?_⟩
    intro c _ hc
    cases hc
  · by_cases he : s.bet_enforce_capital
    · simp only [clamp_bet, he, if_true]
      refine ⟨by omega, by omega, ?_⟩
      intro c2 _ hc
      injection hc with hc2
      subst hc2
      omega
    · rw [Bool.not_eq_true] at he
      simp only [clamp_bet, he, Bool.false_eq_true, if_false]
      refine ⟨by omega, by omega, ?_⟩
      intro c2 he2 _
      exact he2.elim

/-- Unfolding `apply`: the committed bet is the clamp of the resolved bet. -/
theorem apply_current_bet (s : BetSizer) (strategy_id : Int) (capital : Option Int) :
    (s.apply strategy_id capital).2.current_bet =
      clamp_bet
        (resolve_next_bet s (normalize_strategy_id (some strategy_id) STRATEGY_KEEP)).2
        (resolve_next_bet s (normalize_strategy_id (some strategy_id) STRATEGY_KEEP)).1
        capital := rfl

/-- Unfolding `set_current_bet`: the committed bet is the clamped request. -/
theorem set_current_bet_current (s : BetSizer) (bet_amount : Int) (capital : Option Int) :
    (set_current_bet s bet_amount capital).2.current_bet =
      clamp_bet s bet_amount capital := rfl

theorem resolve_next_bet_preserves_caps (s : BetSizer) (strategy_id : Int) :
    (resolve_next_bet s strategy_id).2.bet_max = s.bet_max
    ∧ (resolve_next_bet s strategy_id).2.bet_enforce_capital = s.bet_enforce_capital := by
  unfold resolve_next_bet
  split <;> try exact ⟨rfl, rfl⟩
  split <;> try exact ⟨rfl, rfl⟩
  split <;> try exact ⟨rfl, rfl⟩
  split <;> try exact ⟨rfl, rfl⟩
  split <;> try exact ⟨rfl, rfl⟩
  split <;> exact ⟨rfl, rfl⟩

/-- Claim C8 (amended): after every `apply` (and `set_current_bet`) the
committed bet satisfies `1 ≤ current_bet ≤ bet_max` (given the constructor
invariant `bet_max ≥ 1`), and `current_bet ≤ capital` whenever capital is
enforced and the supplied capital is at least 1; for zero or negative
capital the bet is floored at 1 instead. -/
theorem bet_clamp_invariant (s : BetSizer) (hmax : 1 ≤ s.bet_max) (strategy_id : Int)
    (capital : Option Int) :
    (1 ≤ (s.apply strategy_id capital).2.current_bet
      ∧ (s.apply strategy_id capital).2.current_bet ≤ s.bet_max
      ∧ (∀ c, s.bet_enforce_capital = true → capital = some c → 1 ≤ c →
          (s.apply strategy_id capital).2.current_bet ≤ c))
    ∧ (∀ bet_amount,
        1 ≤ (set_current_bet s bet_amount capital).2.current_bet
        ∧ (set_current_bet s bet_amount capital).2.current_bet ≤ s.bet_max
        ∧ (∀ c, s.bet_enforce_capital = true → capital = some c → 1 ≤ c →
            (set_current_bet s bet_amount capital).2.current_bet ≤ c)) := by
  constructor
  · have hpres := resolve_next_bet_preserves_caps s
      (normalize_strategy_id (some strategy_id) STRATEGY_KEEP)
    have hmax2 : 1 ≤ (resolve_next_bet s
        (normalize_strategy_id (some strategy_id) STRATEGY_KEEP)).2.bet_max := by
      rw [hpres.1]; exact hmax
    have hb := clamp_bet_bounds (resolve_next_bet s
        (normalize_strategy_id (some strategy_id) STRATEGY_KEEP)).2 hmax2
      (resolve_next_bet s (normalize_strategy_id (some strategy_id) STRATEGY_KEEP)).1
      capital
    rw [apply_current_bet]
    refine ⟨hb.1, ?_, ?_⟩
    · rw [← hpres.1]; exact hb.2.1
    · intro c henf hcap hc
      have := hb.2.2 c (by rw [hpres.2]; exact henf) hcap
      omega
  · intro bet_amount
    have hb := clamp_bet_bounds s hmax bet_amount capital
    rw [set_current_bet_current]
    refine ⟨hb.1, hb.2.1, ?_⟩
    intro c henf hcap hc
    have := hb.2.2 c henf hcap
    omega

theorem bet_clamp_invariant_witness :
    1 ≤ c8_sizer.bet_max
    ∧ 1 ≤ (c8_sizer.apply STRATEGY_MARTINGALE (some 7)).2.current_bet
    ∧ (c8_sizer.apply STRATEGY_MARTINGALE (some 7)).2.current_bet ≤ c8_sizer.bet_max
    ∧ (c8_sizer.apply STRATEGY_MARTINGALE (some 7)).2.current_bet ≤ 7 :=
  ⟨by decide,
    (bet_clamp_invariant c8_sizer (by decide) STRATEGY_MARTINGALE (some 7)).1.1,
    (bet_clamp_invariant c8_sizer (by decide) STRATEGY_MARTINGALE (some 7)).1.2.1,
    (bet_clamp_invariant c8_sizer (by decide) STRATEGY_MARTINGALE
      (some 7)).1.2.2 7 rfl rfl (by decide)⟩

/-! ## C9: the D'Alembert rule. -/

/-- Claim C9 counterexample: the state reached by D'Alembert play
loss, loss, win from base 10 with `bet_max = 25` (bets 10 → 20 → 25 → 15)
followed by another win resolves the next bet to `15 - 10 = 5`, which is
*below* the base bet 10: the win branch subtracts the unit without
flooring at the base whenever `current_bet > base_bet`. -/
theorem dalembert_below_base_counterexample :
    c9_state.last_outcome = BetOutcome.win
    ∧ c9_state.base_bet = 10
    ∧ c9_state.unit = 10
    ∧ c9_state.current_bet = 15
    ∧ (resolve_next_bet c9_state STRATEGY_DALEMBERT).1 = 5
    ∧ (resolve_next_bet c9_state STRATEGY_DALEMBERT).1 < c9_state.base_bet := by
  decide

/-- Claim C9 (amended): under D'Alembert, a loss increases the (pre-clamp)
bet by one unit; a win decreases it by one unit when the current bet is
strictly above base and resets to base otherwise.  The win result is at or
above base whenever the current bet is at most base or exceeds it by at
least one unit — but it can drop below base when `0 < current - base < unit`. -/
theorem dalembert_resolve (s : BetSizer) (hwin : s.last_outcome = BetOutcome.win) :
    ((resolve_next_bet s STRATEGY_DALEMBERT).1 =
        if s.base_bet < s.current_bet then s.current_bet - s.unit else s.base_bet)
    ∧ (s.current_bet ≤ s.base_bet ∨ s.base_bet + s.unit ≤ s.current_bet →
        s.base_bet ≤ (resolve_next_bet s STRATEGY_DALEMBERT).1)
    ∧ (∀ s2 : BetSizer, s2.last_outcome = BetOutcome.loss →
        (resolve_next_bet s2 STRATEGY_DALEMBERT).1 = s2.current_bet + s2.unit) := by
  have hshape : (resolve_next_bet s STRATEGY_DALEMBERT).1 =
      if s.base_bet < s.current_bet then s.current_bet - s.unit else s.base_bet := by
    simp [resolve_next_bet, STRATEGY_DALEMBERT, STRATEGY_KEEP, STRATEGY_MARTINGALE,
      STRATEGY_REVERSE, hwin]
  refine ⟨hshape, ?_, ?_⟩
  · intro hcase
    rw [hshape]
    split <;> omega
  · intro s2 hloss
    simp [resolve_next_bet, STRATEGY_DALEMBERT, STRATEGY_KEEP, STRATEGY_MARTINGALE,
      STRATEGY_REVERSE, hloss]

theorem dalembert_resolve_witness :
    c9_witness_state.last_outcome = BetOutcome.win
    ∧ (resolve_next_bet c9_witness_state STRATEGY_DALEMBERT).1 =
        (if c9_witness_state.base_bet < c9_witness_state.current_bet then
          c9_witness_state.current_bet - c9_witness_state.unit
         else c9_witness_state.base_bet) :=
  ⟨rfl, (dalembert_resolve c9_witness_state rfl).1⟩

/-! ## C4: the epsilon decay floor. -/

/-- Claim C4 counterexample: with `epsilon = 0.1004`, `epsilon_min = 0.1`,
`decay = 0.995` and a ready replay buffer (`replay_buffer_size = 0`, one
remembered transition), one training step decays epsilon to
`0.0998980`, strictly below `epsilon_min`: the guard
`if epsilon > epsilon_min` does not floor the product at `epsilon_min`. -/
theorem epsilon_below_min_counterexample :
    is_training_ready (remember c4_agent) = true
    ∧ (train_step c4_agent).epsilon < c4_agent.epsilon_min := by
  constructor
  · decide
  · show (train_step c4_agent).epsilon < c4_agent.epsilon_min
    norm_num [train_step, handle_replay, remember, replay_epsilon_update,
      is_training_ready, c4_agent, mkDQNAgent]

/-- `train_step` never changes the configured decay parameters or sizes. -/
theorem train_step_preserves_params (a : DQNAgentState) :
    (train_step a).epsilon_min = a.epsilon_min
    ∧ (train_step a).epsilon_decay = a.epsilon_decay := by
  unfold train_step handle_replay replay_epsilon_update remember
  split
  · split <;> exact ⟨rfl, rfl⟩
  · exact ⟨rfl, rfl⟩

/-- One training step keeps epsilon at or above
`min epsilon (epsilon_min * decay)`. -/
theorem train_step_epsilon_lb (a : DQNAgentState) (hdecay : 0 ≤ a.epsilon_decay) :
    min a.epsilon (a.epsilon_min * a.epsilon_decay) ≤ (train_step a).epsilon := by
  unfold train_step handle_replay replay_epsilon_update remember
  split
  · split
    · rename_i hgt
      simp only []
      calc min a.epsilon (a.epsilon_min * a.epsilon_decay)
          ≤ a.epsilon_min * a.epsilon_decay := min_le_right _ _
        _ ≤ a.epsilon * a.epsilon_decay := by
            exact mul_le_mul_of_nonneg_right (le_of_lt hgt) hdecay
    · exact min_le_left _ _
  · exact min_le_left _ _

/-- Claim C4 (amended): along any training run, epsilon never drops below
`min epsilon₀ (epsilon_min * decay)` — i.e. it can undershoot the floor by
at most one decay factor — and epsilon is never multiplied by the decay
while `is_training_ready()` is false: a step whose buffer is not ready
after remembering leaves epsilon unchanged. -/
theorem epsilon_decay_floor (a : DQNAgentState) (hdecay : 0 ≤ a.epsilon_decay) (n : Nat) :
    min a.epsilon (a.epsilon_min * a.epsilon_decay) ≤ (train_step^[n] a).epsilon
    ∧ (is_training_ready (remember (train_step^[n] a)) = false →
        (train_step^[n + 1] a).epsilon = (train_step^[n] a).epsilon) := by
  have hparams : ∀ k, (train_step^[k] a).epsilon_min = a.epsilon_min
      ∧ (train_step^[k] a).epsilon_decay = a.epsilon_decay := by
    intro k
    induction k with
    | zero => exact ⟨rfl, rfl⟩
    | succ k ih =>
        rw [Function.iterate_succ_apply']
        have hp := train_step_preserves_params (train_step^[k] a)
        exact ⟨hp.1.trans ih.1, hp.2.trans ih.2⟩
  constructor
  · induction n with
    | zero => exact min_le_left _ _
    | succ n ih =>
        have hp := hparams n
        have hlb := train_step_epsilon_lb (train_step^[n] a)
          (by rw [hp.2]; exact hdecay)
        rw [hp.1, hp.2] at hlb
        rw [Function.iterate_succ_apply']
        exact le_trans (le_min ih (min_le_right _ _)) hlb
  · intro hnotready
    rw [Function.iterate_succ_apply']
    generalize hb : train_step^[n] a = b at hnotready ⊢
    unfold train_step handle_replay
    rw [hnotready]
    simp [remember]

theorem epsilon_decay_floor_witness :
    (0 : ℚ) ≤ c4_agent.epsilon_decay
    ∧ min c4_agent.epsilon (c4_agent.epsilon_min * c4_agent.epsilon_decay) ≤
        (train_step^[3] c4_agent).epsilon :=
  ⟨by norm_num [c4_agent, mkDQNAgent],
    (epsilon_decay_floor c4_agent (by norm_num [c4_agent, mkDQNAgent]) 3).1⟩

/-! ## C1: the double-Q replay targets. -/

/-- Row/column characterization of the scatter fold: after folding
`set_entry` writes for every index in `l`, an entry equals the written
value iff its row is in `l` and its column is that row's action. -/
theorem foldl_set_entry {n : Nat} (f : Fin n → Fin STATES) (v : Fin n → ℚ)
    (l : List (Fin n)) (init : Fin n → Fin STATES → ℚ) (j : Fin n) (b : Fin STATES) :
    (l.foldl (fun m i => set_entry m i (f i) (v i)) init) j b =
      if j ∈ l ∧ b = f j then v j else init j b := by
  induction l generalizing init with
  | nil => simp
  | cons c cs ih =>
      rw [List.foldl_cons, ih]
      by_cases h1 : j ∈ cs ∧ b = f j
      · rw [if_pos h1, if_pos ⟨List.mem_cons.mpr (Or.inr h1.1), h1.2⟩]
      · rw [if_neg h1]
        unfold set_entry
        by_cases h2 : j = c ∧ b = f c
        · have hbj : b = f j := by rw [h2.1]; exact h2.2
          rw [if_pos h2, if_pos ⟨List.mem_cons.mpr (Or.inl h2.1), hbj⟩]
          rw [h2.1]
        · rw [if_neg h2, if_neg ?hno]
          case hno =>
            rintro ⟨hm, hbj⟩
            rcases List.mem_cons.mp hm with h | h
            · exact h2 ⟨h, by rw [← h]; exact hbj⟩
            · exact h1 ⟨h, hbj⟩

/-- The replay targets matrix, entrywise: the taken-action entry holds the
double-Q bootstrap value, every other entry holds the online model's
current prediction. -/
theorem replay_targets_eq {n : Nat} (gamma bet_amount : ℚ) (model target_model : QModel)
    (minibatch : Fin n → Transition) (i : Fin n) (a : Fin STATES) :
    replay_targets gamma bet_amount model target_model minibatch i a =
      if a = (minibatch i).action then
        updated_target gamma bet_amount model target_model (minibatch i)
      else model (minibatch i).state (minibatch i).gain a := by
  unfold replay_targets
  rw [foldl_set_entry]
  simp [List.mem_finRange]

/-- Claim C1: in `DQNAgent.replay`, for every sampled transition the row of
the training-target matrix equals the online model's current prediction in
every action slot except the taken action, whose entry equals
`scaled_reward + (1 - done) * gamma * target_model.predict(next_state)[a*]`
with `a* = argmax(model.predict(next_state))`; this matrix is exactly what
is passed to `model.train_on_batch`. -/
theorem replay_double_q_targets {n : Nat} (gamma bet_amount : ℚ)
    (model target_model : QModel) (minibatch : Fin n → Transition) (i : Fin n) :
    (∀ a : Fin STATES, a ≠ (minibatch i).action →
        replay_targets gamma bet_amount model target_model minibatch i a =
          model (minibatch i).state (minibatch i).gain a)
    ∧ replay_targets gamma bet_amount model target_model minibatch i
        (minibatch i).action =
        scale_rewards bet_amount ((minibatch i).reward : ℚ) +
          (1 - done_flag (minibatch i).done) * gamma *
            target_model (minibatch i).next_state (minibatch i).next_gain
              (np_argmax (model (minibatch i).next_state (minibatch i).next_gain)) := by
  constructor
  · intro a ha
    rw [replay_targets_eq, if_neg ha]
  · rw [replay_targets_eq, if_pos rfl]
    rfl

theorem replay_double_q_targets_witness :
    ((⟨3, by decide⟩ : Fin STATES) ≠ c1_transition.action)
    ∧ replay_targets (n := 1) (1/2) 10 c1_model c1_target_model
        (fun _ => c1_transition) ⟨0, by decide⟩ ⟨3, by decide⟩ =
        c1_model c1_transition.state c1_transition.gain ⟨3, by decide⟩ :=
  ⟨by decide,
    (replay_double_q_targets (n := 1) (1/2) 10 c1_model c1_target_model
      (fun _ => c1_transition) ⟨0, by decide⟩).1 ⟨3, by decide⟩ (by decide)⟩

/-! ## C5: the bucketed history bound and re-arrival behaviour. -/

/-- `history_bucket` in terms of natural division. -/
theorem history_bucket_eq_div (m t : Nat) :
    history_bucket m t =
      (if HISTORY_POINTS_PER_EPISODE ≤ m then
        min (HISTORY_POINTS_PER_EPISODE - 1) (if 0 < m then 20 * t / m else t)
       else (if 0 < m then 20 * t / m else t)) := by
  unfold history_bucket history_bucket_size HISTORY_POINTS_PER_EPISODE
  by_cases hm : 0 < m
  · have hq : (t : ℚ) / ((m : ℚ) / (20 : ℚ)) = ((20 * t : ℕ) : ℚ) / ((m : ℕ) : ℚ) := by
      rw [div_div_eq_mul_div]
      push_cast
      ring
    have hfloor : ⌊(t : ℚ) / ((m : ℚ) / (20 : ℚ))⌋₊ = 20 * t / m := by
      rw [hq, Nat.floor_div_nat ((20 * t : ℕ) : ℚ) m, Nat.floor_natCast]
    simp only [hm, if_true, Nat.cast_ofNat, hfloor]
  · simp only [hm, if_false]
    have h0 : m = 0 := by omega
    subst h0
    simp

/-- Any arrival with `time_step < max_steps` lands in a bucket `≤ 19`. -/
theorem history_bucket_lt (m t : Nat) (ht : t < m) :
    history_bucket m t + 1 ≤ HISTORY_POINTS_PER_EPISODE := by
  have hm : 0 < m := by omega
  rw [history_bucket_eq_div]
  have hdiv : 20 * t / m < 20 := by
    rw [Nat.div_lt_iff_lt_mul hm]
    omega
  unfold HISTORY_POINTS_PER_EPISODE
  simp only [hm, if_true]
  by_cases h20 : 20 ≤ m <;> simp [h20] <;> omega

/-- `history_bucket` is monotone in the time step. -/
theorem history_bucket_mono (m : Nat) {t1 t2 : Nat} (h : t1 ≤ t2) :
    history_bucket m t1 ≤ history_bucket m t2 := by
  rw [history_bucket_eq_div, history_bucket_eq_div]
  have hdiv : (if 0 < m then 20 * t1 / m else t1) ≤ (if 0 < m then 20 * t2 / m else t2) := by
    by_cases hm : 0 < m
    · simp only [hm, if_true]
      exact Nat.div_le_div_right (by omega)
    · simp only [hm, if_false]
      exact h
  by_cases h20 : HISTORY_POINTS_PER_EPISODE ≤ m <;> simp [h20] <;> omega

/-- A repeat of the most recent `(episode, bucket)` key is dropped: the
state is returned unchanged. -/
theorem update_session_stats_skip (s : TrainingHistoryState) (scores : Scores)
    (v : Option Scores) (ep t : Nat) (r tr cap : ℚ)
    (hep : s.last_history_episode = some ep)
    (hbk : s.last_history_bucket = some (history_bucket s.max_steps t)) :
    update_session_stats s scores v ep t r tr cap = s := by
  unfold update_session_stats
  simp [hep, hbk]

/-- An arrival for a new episode, or for a new bucket of the current
episode, appends exactly one point and updates the trackers. -/
theorem update_session_stats_accept (s : TrainingHistoryState) (scores : Scores)
    (v : Option Scores) (ep t : Nat) (r tr cap : ℚ)
    (hacc : s.last_history_episode ≠ some ep ∨
      (s.last_history_episode = some ep ∧
        s.last_history_bucket ≠ some (history_bucket s.max_steps t))) :
    (update_session_stats s scores v ep t r tr cap).max_steps = s.max_steps
    ∧ (update_session_stats s scores v ep t r tr cap).last_history_episode = some ep
    ∧ (update_session_stats s scores v ep t r tr cap).last_history_bucket =
        some (history_bucket s.max_steps t)
    ∧ (update_session_stats s scores v ep t r tr cap).session_stats.episode =
        s.session_stats.episode ++ [ep + 1]
    ∧ (update_session_stats s scores v ep t r tr cap).session_stats.loss =
        s.session_stats.loss ++ [scores.loss] := by
  rcases hacc with h | ⟨hep, hbk⟩
  · cases v <;> simp [update_session_stats, h]
  · cases v <;> simp [update_session_stats, hep, hbk]

/-- Appending one point for episode `ep` increments exactly that episode's
point count. -/
theorem episode_point_count_append (s s2 : TrainingHistoryState) (ep : Nat)
    (hlist : s2.session_stats.episode = s.session_stats.episode ++ [ep + 1]) (e : Nat) :
    episode_point_count s2 e = episode_point_count s e + (if e = ep then 1 else 0) := by
  unfold episode_point_count
  rw [hlist, List.count_append]
  congr 1
  by_cases h : e = ep <;> simp [List.count_cons, h]

/-- The bucket of the first recorded arrival: time step 50 with
`max_steps = 2000` lands in bucket 0. -/
theorem c5_bucket_eq : history_bucket 2000 50 = 0 := by
  rw [history_bucket_eq_div]
  decide

/-- The trackers and loss column after the first arrival. -/
theorem c5_s1_shape :
    c5_s1.max_steps = 2000
    ∧ c5_s1.last_history_episode = some 0
    ∧ c5_s1.last_history_bucket = some (history_bucket 2000 50)
    ∧ c5_s1.session_stats.loss = [c5_scores1.loss] := by
  have h := update_session_stats_accept (mkTrainingHistoryState 2000) c5_scores1
    none 0 50 0 0 0 (Or.inl (by simp [mkTrainingHistoryState]))
  refine ⟨h.1, h.2.1, h.2.2.1, ?_⟩
  have hl := h.2.2.2.2
  simpa [mkTrainingHistoryState, emptySessionStats] using hl

/-- Claim C5 counterexample: re-submitting a stats point for the
already-seen `(episode, bucket)` key `(0, 0)` with a different loss value
leaves the history state completely unchanged — the code *drops* the
repeat instead of overwriting the stored point in place with the new one. -/
theorem history_overwrite_counterexample :
    c5_s1.session_stats.loss = [c5_scores1.loss]
    ∧ c5_s2 = c5_s1
    ∧ c5_s2.session_stats.loss ≠ [c5_scores2.loss] := by
  obtain ⟨hm, hep, hbk, hloss⟩ := c5_s1_shape
  have hskip : c5_s2 = c5_s1 := by
    show update_session_stats c5_s1 c5_scores2 none 0 50 0 0 0 = c5_s1
    exact update_session_stats_skip c5_s1 c5_scores2 none 0 50 0 0 0 hep
      (by rw [hbk, hm])
  refine ⟨hloss, hskip, ?_⟩
  rw [hskip, hloss]
  simp [c5_scores1, c5_scores2]

/-- One arrival preserves the history invariant. -/
theorem history_inv_update (m : Nat) (prev : Option StatsCall) (s : TrainingHistoryState)
    (c : StatsCall) (hinv : history_inv m prev s) (hct : c.time_step < m)
    (hord : ∀ p, prev = some p →
      p.episode ≤ c.episode ∧ (p.episode = c.episode → p.time_step ≤ c.time_step)) :
    history_inv m (some c)
      (update_session_stats s c.scores c.val_scores c.episode c.time_step
        c.reward c.total_reward c.capital) := by
  cases prev with
  | none =>
      obtain ⟨hm, hep, hbk, hlist⟩ := hinv
      obtain ⟨hm2, hep2, hbk2, hlist2, _⟩ :=
        update_session_stats_accept s c.scores c.val_scores c.episode
          c.time_step c.reward c.total_reward c.capital
          (Or.inl (by rw [hep]; exact fun h => Option.noConfusion h))
      have hcount := episode_point_count_append s _ c.episode hlist2
      have hzero : ∀ e, episode_point_count s e = 0 := by
        intro e
        unfold episode_point_count
        rw [hlist]
        rfl
      refine ⟨hm2.trans hm, hep2, by rw [hbk2, hm], ?_, ?_, ?_⟩
      · intro e
        rw [hcount e, hzero e]
        unfold HISTORY_POINTS_PER_EPISODE
        split <;> omega
      · rw [hcount c.episode, hzero c.episode]
        simp
      · intro e he
        rw [hcount e, hzero e]
        have : ¬(e = c.episode) := by omega
        simp [this]
  | some p =>
      obtain ⟨hm, hep, hbk, hall, hcnt, hzero⟩ := hinv
      obtain ⟨hple, hpt⟩ := hord p rfl
      by_cases hpe : p.episode = c.episode
      · by_cases hbeq : history_bucket m p.time_step = history_bucket m c.time_step
        · -- same episode, same bucket: the arrival is dropped.
          have hskip := update_session_stats_skip s c.scores c.val_scores c.episode
            c.time_step c.reward c.total_reward c.capital
            (by rw [hep, hpe]) (by rw [hbk, hm, hbeq])
          rw [hskip]
          refine ⟨hm, by rw [hep, hpe], by rw [hbk, hbeq], hall, ?_, ?_⟩
          · rw [← hpe, ← hbeq]
            exact hcnt
          · rw [← hpe]
            exact hzero
        · -- same episode, new bucket: appended.
          have hmono : history_bucket m p.time_step ≤ history_bucket m c.time_step :=
            history_bucket_mono m (hpt hpe)
          have hstep : history_bucket m p.time_step + 1 ≤
              history_bucket m c.time_step := by
            omega
          obtain ⟨hm2, hep2, hbk2, hlist2, _⟩ :=
            update_session_stats_accept s c.scores c.val_scores c.episode
              c.time_step c.reward c.total_reward c.capital
              (Or.inr ⟨by rw [hep, hpe], by
                rw [hbk, hm]
                intro h
                exact hbeq (Option.some.inj h)⟩)
          have hcount := episode_point_count_append s _ c.episode hlist2
          have hc20 := history_bucket_lt m c.time_step hct
          have hcntc : episode_point_count s c.episode ≤
              history_bucket m p.time_step + 1 := by
            rw [← hpe]
            exact hcnt
          refine ⟨hm2.trans hm, hep2, by rw [hbk2, hm], ?_, ?_, ?_⟩
          · intro e
            rw [hcount e]
            by_cases he : e = c.episode
            · rw [if_pos he, he]
              omega
            · rw [if_neg he]
              have := hall e
              omega
          · rw [hcount c.episode, if_pos rfl]
            omega
          · intro e he
            rw [hcount e]
            have hne : ¬(e = c.episode) := by omega
            rw [if_neg hne, hzero e (by omega)]
      · -- new episode: the tracker resets and the arrival is appended.
        have hplt : p.episode < c.episode := lt_of_le_of_ne hple hpe
        obtain ⟨hm2, hep2, hbk2, hlist2, _⟩ :=
          update_session_stats_accept s c.scores c.val_scores c.episode
            c.time_step c.reward c.total_reward c.capital
            (Or.inl (by
              rw [hep]
              intro h
              exact hpe (Option.some.inj h)))
        have hcount := episode_point_count_append s _ c.episode hlist2
        have hzc : episode_point_count s c.episode = 0 := hzero c.episode hplt
        refine ⟨hm2.trans hm, hep2, by rw [hbk2, hm], ?_, ?_, ?_⟩
        · intro e
          rw [hcount e]
          by_cases he : e = c.episode
          · rw [if_pos he, he, hzc]
            unfold HISTORY_POINTS_PER_EPISODE
            omega
          · rw [if_neg he]
            have := hall e
            omega
        · rw [hcount c.episode, hzc, if_pos rfl]
          omega
        · intro e he
          rw [hcount e]
          have hne : ¬(e = c.episode) := by omega
          rw [if_neg hne, hzero e (by omega)]

/-- The 20-point bound holds along any monotone run of arrivals. -/
theorem history_inv_run (m : Nat) (calls : List StatsCall) :
    ∀ (prev : Option StatsCall) (s : TrainingHistoryState),
      history_inv m prev s →
      stats_chain prev calls →
      (∀ c ∈ calls, c.time_step < m) →
      ∀ e, episode_point_count (apply_stats_calls s calls) e ≤
        HISTORY_POINTS_PER_EPISODE := by
  induction calls with
  | nil =>
      intro prev s hinv _ _ e
      cases prev with
      | none =>
          obtain ⟨_, _, _, hlist⟩ := hinv
          show episode_point_count s e ≤ HISTORY_POINTS_PER_EPISODE
          unfold episode_point_count
          rw [hlist]
          unfold HISTORY_POINTS_PER_EPISODE
          simp
      | some p =>
          obtain ⟨_, _, _, hall, _, _⟩ := hinv
          exact hall e
  | cons c cs ih =>
      intro prev s hinv hchain hsteps e
      have hct : c.time_step < m := hsteps c (List.mem_cons_self c cs)
      have hord : ∀ p, prev = some p →
          p.episode ≤ c.episode ∧ (p.episode = c.episode → p.time_step ≤ c.time_step) := by
        intro p hp
        subst hp
        exact hchain.1
      have hinv2 := history_inv_update m prev s c hinv hct hord
      exact ih (some c) _ hinv2 hchain.2
        (fun d hd => hsteps d (List.mem_cons_of_mem c hd)) e

/-- Claim C5 (amended): under the training loop's arrival order
(non-decreasing episodes; non-decreasing time steps within an episode;
every time step below `max_steps`), each episode receives at most 20
bucketed history points; and a stats point arriving for the same
`(episode, bucket)` key as the most recent point is dropped — the existing
point is retained unchanged, no duplicate is appended (and nothing is
overwritten). -/
theorem history_points_per_episode_bound (m : Nat) (calls : List StatsCall)
    (hchain : stats_chain none calls)
    (hsteps : ∀ c ∈ calls, c.time_step < m) (e : Nat) :
    episode_point_count (apply_stats_calls (mkTrainingHistoryState m) calls) e ≤
      HISTORY_POINTS_PER_EPISODE
    ∧ (∀ (s : TrainingHistoryState) (scores : Scores) (v : Option Scores)
        (ep t : Nat) (r tr cap : ℚ),
        s.last_history_episode = some ep →
        s.last_history_bucket = some (history_bucket s.max_steps t) →
        update_session_stats s scores v ep t r tr cap = s) := by
  constructor
  · exact history_inv_run m calls none (mkTrainingHistoryState m)
      ⟨rfl, rfl, rfl, rfl⟩ hchain hsteps e
  · intro s scores v ep t r tr cap hep hbk
    exact update_session_stats_skip s scores v ep t r tr cap hep hbk

theorem history_points_per_episode_bound_witness :
    stats_chain none [c5_call1, c5_call2]
    ∧ (∀ c ∈ [c5_call1, c5_call2], c.time_step < 2000)
    ∧ episode_point_count
        (apply_stats_calls (mkTrainingHistoryState 2000) [c5_call1, c5_call2]) 0 ≤
        HISTORY_POINTS_PER_EPISODE := by
  have hchain : stats_chain none [c5_call1, c5_call2] := by
    refine ⟨trivial, ⟨?_, ?_⟩, trivial⟩
    · norm_num [c5_call1, c5_call2]
    · intro _
      norm_num [c5_call1, c5_call2]
  have hsteps : ∀ c ∈ [c5_call1, c5_call2], c.time_step < 2000 := by
    intro c hc
    rcases List.mem_cons.mp hc with h | h
    · subst h; norm_num [c5_call1]
    · rcases List.mem_cons.mp h with h2 | h2
      · subst h2; norm_num [c5_call2]
      · cases h2
  exact ⟨hchain, hsteps,
    (history_points_per_episode_bound 2000 [c5_call1, c5_call2] hchain hsteps 0).1⟩
